import Mathlib

/-!
# Verification of the blog content build pipeline

A shallow embedding of the content build pipeline of the `dizhak_blog`
repository: the Content Loader, the Post Index Builder and the Page
Renderer, together with the data model (`Post`, Catalog, `Page`) they
operate on.  Components whose implementation lives in third-party
framework plugins are modelled from the specification, as marked in the
doc comments; the page templates and the listing page are embedded from
`src/templates/post.js` and `src/pages/index.js`.
-/

namespace Blog

/-! ## Data model (§3 of the spec) -/

/-- A validated blog post.  `publicationDate` is stored as the numeric key
`yyyymmdd` parsed from the ISO `date` field of the front matter, so that
date comparison is ordinary numeric comparison. -/
structure Post where
  title : String
  author : Option String
  publicationDate : Nat
  path : String
  tags : List String
  resources : List String
  bodyMarkup : String
deriving DecidableEq, Repr

/-- A raw content file: the file identity plus the parsed front-matter
fields (each optional, since a file may omit them) and the Markdown body. -/
structure RawFile where
  name : String
  title : Option String
  author : Option String
  date : Option String
  path : Option String
  tags : List String
  resources : List String
  body : String
deriving DecidableEq, Repr

/-- Numeric key of an ISO `YYYY-MM-DD` date string: keep the digits,
giving `yyyymmdd` as a natural number.  Chronological order of valid ISO
dates coincides with numeric order of their keys. -/
def dateKey (iso : String) : Nat :=
  iso.data.foldl (fun acc c => if c.isDigit then acc * 10 + (c.toNat - 48) else acc) 0

/-! ## Reading time

Modelled from the spec: the implementation is the external
`gatsby-remark-reading-time` plugin (declared in `gatsby-config.js` but
not part of this repository), which counts whitespace-delimited words and
divides by an average reading speed of 200 words per minute, rounding up,
producing an "N min read" display string. -/

/-- Word counter over a character stream.  The boolean flag records
whether the previous character was inside a word; a word is counted when
a non-whitespace character is seen while not inside a word. -/
def countWordsAux : List Char → Bool → Nat
  | [], _ => 0
  | c :: cs, inWord =>
    if c.isWhitespace then countWordsAux cs false
    else (if inWord then 0 else 1) + countWordsAux cs true

/-- Number of whitespace-delimited tokens of a string. -/
def countWords (s : String) : Nat :=
  countWordsAux s.data false

/-- Tokenizer over a character stream; `acc` holds the (reversed)
characters of the token currently being read. -/
def tokenizeAux : List Char → List Char → List (List Char)
  | [], acc => if acc.isEmpty then [] else [acc.reverse]
  | c :: cs, acc =>
    if c.isWhitespace then
      if acc.isEmpty then tokenizeAux cs [] else acc.reverse :: tokenizeAux cs []
    else tokenizeAux cs (c :: acc)

/-- The whitespace-delimited tokens of a string. -/
def tokens (s : String) : List (List Char) :=
  tokenizeAux s.data []

/-- Modelled from the spec: the configurable average reading speed, with
its default value of 200 words per minute. -/
def averageReadingSpeed : Nat := 200

/-- The derived reading-time attribute: word count, estimated minutes and
display string. -/
structure ReadingTime where
  words : Nat
  minutes : Nat
  text : String
deriving DecidableEq, Repr

/-- Modelled from the spec: reading time of a post body.  Estimated
minutes are `ceiling (wordCount / averageReadingSpeed)`, computed on
naturals as `(w + speed - 1) / speed`. -/
def readingTime (body : String) : ReadingTime :=
  let w := countWords body
  let m := (w + (averageReadingSpeed - 1)) / averageReadingSpeed
  { words := w, minutes := m, text := toString m ++ " min read" }

/-! ## Content Loader (§4.1)

Modelled from the spec: file discovery and front-matter splitting are
performed by the framework (`gatsby-source-filesystem` and
`gatsby-transformer-remark`, declared in `gatsby-config.js`); the loader
contract `loadPosts` with its `MalformedFrontMatterError` is given by
§4.1 of the specification. -/

/-- Errors of the loading phase. -/
inductive LoadError where
  | malformedFrontMatter (file : String) : LoadError
deriving DecidableEq, Repr

/-- Modelled from the spec: validation of one raw file.  The required
front-matter fields are `path` and `title`; when either is missing the
file is rejected with `MalformedFrontMatterError` carrying the file
identity. -/
def validate (f : RawFile) : Except LoadError Post :=
  match f.title, f.path with
  | some t, some p =>
      .ok { title := t, author := f.author,
            publicationDate := dateKey (f.date.getD ""), path := p,
            tags := f.tags, resources := f.resources, bodyMarkup := f.body }
  | _, _ => .error (.malformedFrontMatter f.name)

/-- Modelled from the spec: `loadPosts` validates every file and fails
fatally on the first malformed one; no partial list is ever produced. -/
def loadPosts : List RawFile → Except LoadError (List Post)
  | [] => .ok []
  | f :: fs =>
    match validate f with
    | .error e => .error e
    | .ok p =>
      match loadPosts fs with
      | .error e => .error e
      | .ok ps => .ok (p :: ps)

/-! ## Post Index Builder (§4.2)

Modelled from the spec: the catalog is assembled by the framework's data
layer; the sort direction is declared in `src/pages/index.js` by the
query `allMarkdownRemark(sort: (order: DESC, fields: (frontmatter___date)))`.
The builder contract `buildCatalog` with its `DuplicatePathError` is
given by §4.2 of the specification: stable sort by `publicationDate`
descending after validating uniqueness of `path`. -/

/-- Errors of the indexing phase. -/
inductive BuildError where
  | duplicatePath (path : String) : BuildError
deriving DecidableEq, Repr

/-- The relation "A may come before B in the catalog": descending by
publication date.  It is total and transitive, and ties (equal dates) are
related both ways, which is what makes insertion sort stable on them. -/
def byDateDesc (a b : Post) : Prop :=
  b.publicationDate ≤ a.publicationDate

instance : DecidableRel byDateDesc :=
  fun a b => inferInstanceAs (Decidable (b.publicationDate ≤ a.publicationDate))

instance : IsTotal Post byDateDesc :=
  ⟨fun a b => (Nat.le_total a.publicationDate b.publicationDate).symm⟩

instance : IsTrans Post byDateDesc :=
  ⟨fun _ _ _ hab hbc => Nat.le_trans hbc hab⟩

/-- First path that occurs in two different posts of the list, if any. -/
def firstDuplicatePath : List Post → Option String
  | [] => none
  | p :: ps =>
    if ps.any (fun q => q.path = p.path) then some p.path
    else firstDuplicatePath ps

/-- Modelled from the spec: `buildCatalog` fails with `DuplicatePathError`
when two posts share a `path`, and otherwise returns the posts stably
sorted by publication date descending. -/
def buildCatalog (posts : List Post) : Except BuildError (List Post) :=
  match firstDuplicatePath posts with
  | some d => .error (.duplicatePath d)
  | none => .ok (List.insertionSort byDateDesc posts)

/-! ## Page Renderer (§4.3)

The two page templates are embedded from the source: the listing page
from `src/pages/index.js` (a `div` per post holding a `Link` with the
post title and a `span` with the `YYYY-MM-DD` date) and the post page
from `src/templates/post.js` (an `h1` title, an `h2` `MMMM DD, YYYY`
date — with the reading-time text appended in the variant template that
queries `fields.readingTime` — and a `div` whose inner HTML is set
verbatim from the transformed body via `dangerouslySetInnerHTML`).
React escapes text children; `dangerouslySetInnerHTML` bypasses that
escaping.  The per-page failure policy of `render` is modelled from the
spec (§4.3, §7), the Markdown-to-HTML transformer being an external
collaborator (§6) passed in as a function. -/

/-- HTML escaping of one character, as applied by React to text nodes. -/
def escapeChar (c : Char) : String :=
  if c = '&' then "&amp;"
  else if c = '<' then "&lt;"
  else if c = '>' then "&gt;"
  else if c = '"' then "&quot;"
  else if c = '\'' then "&#x27;"
  else String.singleton c

/-- HTML escaping of a text node. -/
def escapeHtml (s : String) : String :=
  String.join (s.data.map escapeChar)

/-- Two-digit zero-padded decimal rendering of a number below 100. -/
def pad2 (n : Nat) : String :=
  if n < 10 then "0" ++ toString n else toString n

/-- The `YYYY-MM-DD` date format used by the listing page query. -/
def formatDateISO (d : Nat) : String :=
  toString (d / 10000) ++ "-" ++ pad2 (d / 100 % 100) ++ "-" ++ pad2 (d % 100)

/-- English month name of a month number, as produced by the `MMMM`
format token. -/
def monthName (m : Nat) : String :=
  match m with
  | 1 => "January" | 2 => "February" | 3 => "March" | 4 => "April"
  | 5 => "May" | 6 => "June" | 7 => "July" | 8 => "August"
  | 9 => "September" | 10 => "October" | 11 => "November" | 12 => "December"
  | _ => "Invalid"

/-- The `MMMM DD, YYYY` date format used by the post page query. -/
def formatDateLong (d : Nat) : String :=
  monthName (d / 100 % 100) ++ " " ++ pad2 (d % 100) ++ ", " ++ toString (d / 10000)

/-- An output page: a route plus rendered content. -/
structure Page where
  route : String
  content : String
deriving DecidableEq, Repr

/-- The template parameters: whether the post template displays the
reading time (`src/templates/post.js` does not; the variant template
querying `fields.readingTime` does — the spec treats the slot as
optional). -/
structure Templates where
  showReadingTime : Bool
deriving DecidableEq, Repr

/-- A reported per-page rendering failure, carrying the post's path. -/
structure RenderFailure where
  path : String
  message : String
deriving DecidableEq, Repr

/-- One listing entry, from `src/pages/index.js`: a `div` holding a
`Link` to the post's path whose text is the title, and a `span` with the
`YYYY-MM-DD` date. -/
def listingEntry (p : Post) : String :=
  "<div>" ++ ("<a href=\"" ++ p.path ++ "\">" ++ escapeHtml p.title ++ "</a>")
    ++ ("<span>" ++ escapeHtml (formatDateISO p.publicationDate) ++ "</span>")
    ++ "</div>"

/-- The listing page content: the entries of all posts, in catalog
order. -/
def listingContent : List Post → String
  | [] => ""
  | p :: ps => listingEntry p ++ listingContent ps

/-- The listing page, at route `/`. -/
def listingPage (catalog : List Post) : Page :=
  { route := "/", content := listingContent catalog }

/-- Post page content from `src/templates/post.js`: `h1` title, `h2`
formatted date (with the reading-time text appended when the template
displays it), and a `div` whose inner HTML is the transformer's output
inserted verbatim. -/
def postContent (tmpl : Templates) (p : Post) (html : String) : String :=
  "<div class=\"blog-post\">"
    ++ ("<h1>" ++ escapeHtml p.title ++ "</h1>")
    ++ ("<h2>" ++ escapeHtml (formatDateLong p.publicationDate)
        ++ (if tmpl.showReadingTime then
              " - " ++ escapeHtml (readingTime p.bodyMarkup).text
            else "")
        ++ "</h2>")
    ++ ("<div class=\"blog-post-content\">" ++ html ++ "</div>")
    ++ "</div>"

/-- Rendering of a single post: transform the Markdown body; on success
the page lives at the post's `path`, on failure a `RenderFailure` naming
that path is reported. -/
def renderPost (tmpl : Templates) (transform : String → Except String String)
    (p : Post) : Except RenderFailure Page :=
  match transform p.bodyMarkup with
  | .error msg => .error { path := p.path, message := msg }
  | .ok html => .ok { route := p.path, content := postContent tmpl p html }

/-- The errors, if any, of a list of per-post rendering results. -/
def renderErrors (rs : List (Except RenderFailure Page)) : List RenderFailure :=
  rs.filterMap (fun r => match r with | .error e => some e | .ok _ => none)

/-- Modelled from the spec (§4.3): `render` produces the listing page at
`/` plus one page per post whose body transformation succeeds; failed
posts are excluded from the output set and reported, without aborting
the rest of the build. -/
def render (catalog : List Post) (tmpl : Templates)
    (transform : String → Except String String) :
    List Page × List RenderFailure :=
  let results := catalog.map (renderPost tmpl transform)
  (listingPage catalog :: results.filterMap Except.toOption, renderErrors results)

/-! ## Concrete example data

The two-file example of §8 of the spec, a three-post catalog with one
unparsable body, and a demonstration Markdown-to-HTML transformer that
fails exactly on that body. -/

/-- `a.md` of the end-to-end example: `path: /a`, `date: 2021-01-01`. -/
def fileA : RawFile :=
  { name := "a.md", title := some "Post A", author := none,
    date := some "2021-01-01", path := some "/a",
    tags := [], resources := [], body := "hello world of post a" }

/-- `b.md` of the end-to-end example: `path: /b`, `date: 2021-06-01`. -/
def fileB : RawFile :=
  { name := "b.md", title := some "Post B", author := none,
    date := some "2021-06-01", path := some "/b",
    tags := [], resources := [], body := "short body" }

/-- The post loaded from `fileA`. -/
def postA : Post :=
  { title := "Post A", author := none, publicationDate := 20210101,
    path := "/a", tags := [], resources := [], bodyMarkup := "hello world of post a" }

/-- The post loaded from `fileB`. -/
def postB : Post :=
  { title := "Post B", author := none, publicationDate := 20210601,
    path := "/b", tags := [], resources := [], bodyMarkup := "short body" }

/-- First post of the three-post partial-failure scenario. -/
def postQ1 : Post :=
  { title := "Q one", author := none, publicationDate := 20200301,
    path := "/q1", tags := [], resources := [], bodyMarkup := "fine text" }

/-- Second post of the three-post scenario: its body is the unparsable
construct the demonstration transformer rejects. -/
def postQ2 : Post :=
  { title := "Q two", author := none, publicationDate := 20200201,
    path := "/q2", tags := [], resources := [], bodyMarkup := "<div>unclosed" }

/-- Third post of the three-post partial-failure scenario. -/
def postQ3 : Post :=
  { title := "Q three", author := none, publicationDate := 20200101,
    path := "/q3", tags := [], resources := [], bodyMarkup := "more fine text" }

/-- A demonstration external Markdown-to-HTML transformer: it fails on
the unparsable construct `"<div>unclosed"` and otherwise wraps the body
in a paragraph. -/
def demoTransform (s : String) : Except String String :=
  if s = "<div>unclosed" then .error "unbalanced markup construct"
  else .ok ("<p>" ++ s ++ "</p>")

/-- A raw file with malformed front matter: the required `title` field
is missing. -/
def fileBad : RawFile :=
  { name := "bad.md", title := none, author := none,
    date := some "2020-01-01", path := some "/bad",
    tags := [], resources := [], body := "body text" }

/-- `t` occurs verbatim (as a contiguous substring) in `s`. -/
def strContains (s t : String) : Prop :=
  ∃ a b, s = a ++ (t ++ b)

/-! ## Helper lemmas -/

/-- The tokenizer and the flag-based word counter agree: the number of
tokens produced from the stream is the number of words counted, plus one
for a token already in progress. -/
theorem tokenizeAux_length (l : List Char) (acc : List Char) :
    (tokenizeAux l acc).length
      = (if acc.isEmpty then 0 else 1) + countWordsAux l !acc.isEmpty := by
  induction l generalizing acc with
  | nil => cases acc <;> simp [tokenizeAux, countWordsAux]
  | cons c cs ih =>
    by_cases hw : c.isWhitespace <;> cases acc <;>
      (simp [tokenizeAux, countWordsAux, hw, ih]; try omega)

/-- Appending extra characters to a stream never decreases its word
count. -/
theorem countWordsAux_append (l₁ l₂ : List Char) (b : Bool) :
    countWordsAux l₁ b ≤ countWordsAux (l₁ ++ l₂) b := by
  induction l₁ generalizing b with
  | nil => exact Nat.zero_le _
  | cons c cs ih =>
    simp only [List.cons_append, countWordsAux]
    by_cases hw : c.isWhitespace
    · simp only [if_pos hw]
      exact ih false
    · simp only [if_neg hw]
      exact Nat.add_le_add_left (ih true) _

/-- Inserting a post into a list keeps it in front of the posts with the
same publication date: the walk of `orderedInsert` only passes posts with
strictly greater dates. -/
theorem filter_orderedInsert_eq (a : Post) (l : List Post) :
    (List.orderedInsert byDateDesc a l).filter
        (fun p => p.publicationDate == a.publicationDate)
      = a :: l.filter (fun p => p.publicationDate == a.publicationDate) := by
  induction l with
  | nil => simp [List.orderedInsert]
  | cons b t ih =>
    by_cases h : byDateDesc a b
    · simp [List.orderedInsert, if_pos h, List.filter_cons]
    · have hgt : a.publicationDate < b.publicationDate := Nat.lt_of_not_le h
      have hne : (b.publicationDate == a.publicationDate) = false :=
        beq_eq_false_iff_ne.mpr (Nat.ne_of_gt hgt)
      simp [List.orderedInsert, if_neg h, List.filter_cons, hne, ih]

/-- Inserting a post whose date differs from `d` does not change the
posts of date `d`. -/
theorem filter_orderedInsert_ne (a : Post) (l : List Post) (d : Nat)
    (h : (a.publicationDate == d) = false) :
    (List.orderedInsert byDateDesc a l).filter (fun p => p.publicationDate == d)
      = l.filter (fun p => p.publicationDate == d) := by
  induction l with
  | nil => simp [List.orderedInsert, h]
  | cons b t ih =>
    by_cases hb : byDateDesc a b
    · simp [List.orderedInsert, if_pos hb, List.filter_cons, h]
    · simp [List.orderedInsert, if_neg hb, List.filter_cons, ih]

/-- Stability of the catalog sort: for every date `d`, the posts of date
`d` appear in the sorted catalog exactly in their input order. -/
theorem filter_insertionSort (ps : List Post) (d : Nat) :
    (List.insertionSort byDateDesc ps).filter (fun p => p.publicationDate == d)
      = ps.filter (fun p => p.publicationDate == d) := by
  induction ps with
  | nil => rfl
  | cons p t ih =>
    simp only [List.insertionSort]
    by_cases h : (p.publicationDate == d) = true
    · have hd : p.publicationDate = d := eq_of_beq h
      subst hd
      rw [filter_orderedInsert_eq, ih]
      simp [List.filter_cons]
    · have h' : (p.publicationDate == d) = false := by
        cases hb : p.publicationDate == d
        · rfl
        · exact absurd hb h
      rw [filter_orderedInsert_ne _ _ _ h', ih]
      simp [List.filter_cons, h']

/-- `firstDuplicatePath` finds nothing exactly when the paths are
pairwise distinct. -/
theorem firstDuplicatePath_eq_none (ps : List Post) :
    firstDuplicatePath ps = none ↔ (ps.map Post.path).Nodup := by
  induction ps with
  | nil => simp [firstDuplicatePath]
  | cons p t ih =>
    by_cases h : t.any (fun q => q.path = p.path)
    · have hmorig := h
      simp only [List.any_eq_true, decide_eq_true_eq] at h
      obtain ⟨q, hq, hqp⟩ := h
      have hmem : p.path ∈ t.map Post.path :=
        List.mem_map.mpr ⟨q, hq, hqp⟩
      simp [firstDuplicatePath, hmorig, hmem]
    · have hnot : ∀ q ∈ t, q.path ≠ p.path := by
        intro q hq
        simp only [List.any_eq_true, decide_eq_true_eq, not_exists] at h
        exact fun hc => h q ⟨hq, hc⟩
      have hmem : p.path ∉ t.map Post.path := by
        intro hc
        obtain ⟨q, hq, hqp⟩ := List.mem_map.mp hc
        exact hnot q hq hqp
      simp only [firstDuplicatePath, List.map_cons, List.nodup_cons]
      rw [if_neg h]
      exact ⟨fun hn => ⟨hmem, ih.mp hn⟩, fun hn => ih.mpr hn.2⟩

/-- C1: a catalog produced by `buildCatalog` is sorted by publication
date descending — every post is dated no earlier than each post after
it — with ties kept in insertion order; and on the two-file example
(`a.md` dated 2021-01-01, `b.md` dated 2021-06-01) loading and indexing
yield the catalog `[b, a]`. -/
theorem catalog_sorted_desc :
    (∀ ps c, buildCatalog ps = Except.ok c →
        c.Pairwise (fun A B => B.publicationDate ≤ A.publicationDate) ∧
        ∀ d : Nat, c.filter (fun p => p.publicationDate == d)
          = ps.filter (fun p => p.publicationDate == d)) ∧
    loadPosts [fileA, fileB] = Except.ok [postA, postB] ∧
    buildCatalog [postA, postB] = Except.ok [postB, postA] := by
  refine ⟨?_, rfl, rfl⟩
  intro ps c h
  unfold buildCatalog at h
  cases hd : firstDuplicatePath ps with
  | some d => rw [hd] at h; cases h
  | none =>
    rw [hd] at h
    obtain rfl : List.insertionSort byDateDesc ps = c := by
      cases h; rfl
    refine ⟨?_, fun d => filter_insertionSort ps d⟩
    exact List.sorted_insertionSort byDateDesc ps

/-- Witness for `catalog_sorted_desc`: its sortedness part applied to
the concrete two-post example. -/
theorem catalog_sorted_desc_witness :
    ([postB, postA] : List Post).Pairwise
        (fun A B => B.publicationDate ≤ A.publicationDate) ∧
      ∀ d : Nat, ([postB, postA] : List Post).filter (fun p => p.publicationDate == d)
        = ([postA, postB] : List Post).filter (fun p => p.publicationDate == d) :=
  catalog_sorted_desc.1 [postA, postB] [postB, postA] catalog_sorted_desc.2.2

/-- C3: for every post body, `readingTime` reports as word count the
number of whitespace-delimited tokens of the body, as estimated minutes
the ceiling of word count over the 200 words-per-minute default reading
speed (characterized by `w ≤ 200·m < w + 200`), and as display string
`"N min read"` for that minute count. -/
theorem readingTime_spec (body : String) :
    (readingTime body).words = (tokens body).length ∧
    (readingTime body).words = countWords body ∧
    countWords body ≤ averageReadingSpeed * (readingTime body).minutes ∧
    averageReadingSpeed * (readingTime body).minutes
      < countWords body + averageReadingSpeed ∧
    averageReadingSpeed = 200 ∧
    (readingTime body).text = toString (readingTime body).minutes ++ " min read" := by
  refine ⟨?_, rfl, ?_, ?_, rfl, rfl⟩
  · simpa [tokens, countWords] using (tokenizeAux_length body.data []).symm
  · show countWords body ≤ 200 * ((countWords body + (200 - 1)) / 200)
    omega
  · show 200 * ((countWords body + (200 - 1)) / 200) < countWords body + 200
    omega

/-- C4: reading time is monotone in the body: appending extra text never
decreases the estimated minutes. -/
theorem readingTime_monotone (body1 extra : String) :
    (readingTime body1).minutes ≤ (readingTime (body1 ++ extra)).minutes := by
  show (countWords body1 + (averageReadingSpeed - 1)) / averageReadingSpeed
      ≤ (countWords (body1 ++ extra) + (averageReadingSpeed - 1)) / averageReadingSpeed
  apply Nat.div_le_div_right
  apply Nat.add_le_add_right
  show countWordsAux (body1 ++ extra).data false ≥ _
  rw [String.data_append]
  exact countWordsAux_append _ _ _

/-- A file missing a required front-matter field is rejected with the
error naming that file. -/
theorem validate_missing (f : RawFile) (h : f.title = none ∨ f.path = none) :
    validate f = Except.error (LoadError.malformedFrontMatter f.name) := by
  unfold validate
  cases hT : f.title with
  | none => cases hP : f.path <;> rfl
  | some t =>
    cases hP : f.path with
    | none => rfl
    | some q =>
      rw [hT, hP] at h
      rcases h with h | h <;> cases h

/-- C2: `buildCatalog` fails with `DuplicatePathError` exactly when two
posts collide on `path`: it errors on every input whose paths are not
pairwise distinct, succeeds on every duplicate-free input, and every
post page produced by the renderer lives at the route equal to its
post's unique `path`. -/
theorem path_unique :
    (∀ ps : List Post, ¬ (ps.map Post.path).Nodup →
        ∃ d, buildCatalog ps = Except.error (BuildError.duplicatePath d)) ∧
    (∀ ps : List Post, (ps.map Post.path).Nodup →
        ∃ c, buildCatalog ps = Except.ok c) ∧
    (∀ (tmpl : Templates) (tr : String → Except String String) (p : Post) (pg : Page),
        renderPost tmpl tr p = Except.ok pg → pg.route = p.path) := by
  refine ⟨?_, ?_, ?_⟩
  · intro ps h
    cases hd : firstDuplicatePath ps with
    | none => exact absurd ((firstDuplicatePath_eq_none ps).mp hd) h
    | some d => exact ⟨d, by unfold buildCatalog; rw [hd]⟩
  · intro ps h
    have hd : firstDuplicatePath ps = none := (firstDuplicatePath_eq_none ps).mpr h
    exact ⟨_, by unfold buildCatalog; rw [hd]⟩
  · intro tmpl tr p pg h
    unfold renderPost at h
    cases htr : tr p.bodyMarkup with
    | error m => rw [htr] at h; cases h
    | ok html => rw [htr] at h; cases h; rfl

/-- Witness for `path_unique`: two copies of the same post are rejected,
the duplicate-free two-post example is accepted, and the concrete post
page for `postA` lives at `/a`. -/
theorem path_unique_witness :
    (∃ d, buildCatalog [postA, postA] = Except.error (BuildError.duplicatePath d)) ∧
    (∃ c, buildCatalog [postA, postB] = Except.ok c) ∧
    (Page.mk postA.path (postContent { showReadingTime := false } postA
        ("<p>" ++ postA.bodyMarkup ++ "</p>"))).route = postA.path :=
  ⟨path_unique.1 [postA, postA] (by decide),
   path_unique.2.1 [postA, postB] (by decide),
   path_unique.2.2 { showReadingTime := false } demoTransform postA _ (by rfl)⟩

/-- C7: `loadPosts` fails with `MalformedFrontMatterError` naming an
offending file whenever some input file is missing the required `path`
or `title` field — producing no partial result — and on success it
returns one post per input file, dropping none. -/
theorem loadPosts_malformed :
    (∀ files : List RawFile,
        (∃ f ∈ files, f.title = none ∨ f.path = none) →
        ∃ name, loadPosts files = Except.error (LoadError.malformedFrontMatter name) ∧
          ∃ g ∈ files, g.name = name ∧ (g.title = none ∨ g.path = none)) ∧
    (∀ (files : List RawFile) (ps : List Post),
        loadPosts files = Except.ok ps → ps.length = files.length) := by
  constructor
  · intro files
    induction files with
    | nil => rintro ⟨f, hf, _⟩; cases hf
    | cons f fs ih =>
      rintro ⟨g, hg, hmiss⟩
      by_cases hf : f.title = none ∨ f.path = none
      · refine ⟨f.name, ?_, f, List.mem_cons_self f fs, rfl, hf⟩
        simp [loadPosts, validate_missing f hf]
      · have hgfs : g ∈ fs := by
          rcases List.mem_cons.mp hg with rfl | hmem
          · exact absurd hmiss hf
          · exact hmem
        obtain ⟨name, herr, g', hg', hname, hmiss'⟩ := ih ⟨g, hgfs, hmiss⟩
        refine ⟨name, ?_, g', List.mem_cons_of_mem f hg', hname, hmiss'⟩
        have hok : ∃ p, validate f = Except.ok p := by
          push_neg at hf
          obtain ⟨ht, hp⟩ := hf
          cases hT : f.title with
          | none => exact absurd hT ht
          | some t =>
            cases hP : f.path with
            | none => exact absurd hP hp
            | some q => exact ⟨_, by unfold validate; rw [hT, hP]⟩
        obtain ⟨p, hvp⟩ := hok
        simp [loadPosts, hvp, herr]
  · intro files
    induction files with
    | nil =>
      intro ps h
      cases h
      rfl
    | cons f fs ih =>
      intro ps h
      unfold loadPosts at h
      cases hv : validate f with
      | error e => rw [hv] at h; cases h
      | ok p =>
        rw [hv] at h
        cases hl : loadPosts fs with
        | error e => rw [hl] at h; cases h
        | ok ps' =>
          rw [hl] at h
          cases h
          simp [ih ps' hl]

/-- Witness for `loadPosts_malformed`: the file missing its `title` is
rejected with its identity, and the valid two-file example loads both
posts. -/
theorem loadPosts_malformed_witness :
    (∃ name, loadPosts [fileBad] = Except.error (LoadError.malformedFrontMatter name) ∧
       ∃ g ∈ [fileBad], g.name = name ∧ (g.title = none ∨ g.path = none)) ∧
    ([postA, postB] : List Post).length = ([fileA, fileB] : List RawFile).length :=
  ⟨loadPosts_malformed.1 [fileBad] ⟨fileBad, by decide, Or.inl rfl⟩,
   loadPosts_malformed.2 [fileA, fileB] [postA, postB] (by rfl)⟩

/-- Folding string concatenation from an arbitrary accumulator pulls the
accumulator out front. -/
theorem foldl_append_eq (l : List String) (a : String) :
    l.foldl (fun r s => r ++ s) a = a ++ l.foldl (fun r s => r ++ s) "" := by
  induction l generalizing a with
  | nil => simp only [List.foldl_nil]; rw [String.append_empty]
  | cons s t ih =>
    simp only [List.foldl_cons]
    rw [ih (a ++ s), ih ("" ++ s), String.empty_append, String.append_assoc]

/-- `String.join` peels off its head summand. -/
theorem join_cons (s : String) (l : List String) :
    String.join (s :: l) = s ++ String.join l := by
  show List.foldl (fun r t => r ++ t) "" (s :: l) = _
  rw [List.foldl_cons, String.empty_append, foldl_append_eq]
  rfl

/-- A string contains itself. -/
theorem strContains_self (t : String) : strContains t t :=
  ⟨"", "", by rw [String.append_empty, String.empty_append]⟩

/-- A string contains its own right summand. -/
theorem strContains_refl_append (pre t : String) : strContains (pre ++ t) t :=
  ⟨pre, "", by rw [String.append_empty]⟩

/-- Containment is preserved by prepending. -/
theorem strContains_prepend (pre s t : String) (h : strContains s t) :
    strContains (pre ++ s) t := by
  obtain ⟨a, b, rfl⟩ := h
  exact ⟨pre ++ a, b, (String.append_assoc pre a (t ++ b)).symm⟩

/-- Containment is preserved by appending. -/
theorem strContains_appendRight (s suf t : String) (h : strContains s t) :
    strContains (s ++ suf) t := by
  obtain ⟨a, b, rfl⟩ := h
  exact ⟨a, b ++ suf, by rw [String.append_assoc, String.append_assoc]⟩

/-- A listing entry contains its post's anchor: the link to the post's
path whose text is the escaped title. -/
theorem anchor_in_listingEntry (p : Post) :
    strContains (listingEntry p)
      ("<a href=\"" ++ p.path ++ "\">" ++ escapeHtml p.title ++ "</a>") := by
  unfold listingEntry
  apply strContains_appendRight
  apply strContains_appendRight
  exact strContains_refl_append _ _

/-- A listing entry contains its post's escaped title. -/
theorem title_in_listingEntry (p : Post) :
    strContains (listingEntry p) (escapeHtml p.title) := by
  unfold listingEntry
  apply strContains_appendRight
  apply strContains_appendRight
  apply strContains_prepend
  apply strContains_appendRight
  exact strContains_refl_append _ _

/-- A listing entry contains its post's date span. -/
theorem span_in_listingEntry (p : Post) :
    strContains (listingEntry p)
      ("<span>" ++ escapeHtml (formatDateISO p.publicationDate) ++ "</span>") := by
  unfold listingEntry
  apply strContains_appendRight
  apply strContains_prepend
  exact strContains_self _

/-- Anything contained in the entry of a catalog member is contained in
the listing content. -/
theorem strContains_listingContent (c : List Post) (p : Post) (hp : p ∈ c)
    (t : String) (h : strContains (listingEntry p) t) :
    strContains (listingContent c) t := by
  induction c with
  | nil => cases hp
  | cons q r ih =>
    rcases List.mem_cons.mp hp with rfl | hmem
    · exact strContains_appendRight _ _ _ h
    · exact strContains_prepend _ _ _ (ih hmem)

/-- Inversion for the per-post pages of `render`: every page other than
the listing page comes from a catalog post whose transformation
succeeded, and lives at that post's path. -/
theorem mem_renderPages_inv (c : List Post) (tmpl : Templates)
    (tr : String → Except String String) (pg : Page)
    (h : pg ∈ (c.map (renderPost tmpl tr)).filterMap Except.toOption) :
    ∃ p ∈ c, pg.route = p.path ∧ ∃ html, tr p.bodyMarkup = Except.ok html := by
  obtain ⟨r, hr, hsome⟩ := List.mem_filterMap.mp h
  obtain ⟨p, hp, rfl⟩ := List.mem_map.mp hr
  refine ⟨p, hp, ?_⟩
  unfold renderPost at hsome
  cases htr : tr p.bodyMarkup with
  | error m => rw [htr] at hsome; simp [Except.toOption] at hsome
  | ok html =>
    rw [htr] at hsome
    simp only [Except.toOption] at hsome
    injection hsome with h1
    subst h1
    exact ⟨rfl, html, rfl⟩

/-- The route of every per-post page of `render` is the path of a post
of the catalog whose transformation succeeded. -/
theorem renderPost_toOption_route (c : List Post) (tmpl : Templates)
    (tr : String → Except String String) (pg : Page) (p : Post) (hp : p ∈ c)
    (hsome : (renderPost tmpl tr p).toOption = some pg) :
    ∃ q ∈ c, pg.route = q.path :=
  match mem_renderPages_inv c tmpl tr pg
    (List.mem_filterMap.mpr ⟨renderPost tmpl tr p, List.mem_map.mpr ⟨p, hp, rfl⟩, hsome⟩) with
  | ⟨q, hq, hroute, _⟩ => ⟨q, hq, hroute⟩

/-- C5: `render` emits exactly one page at route `/` (the listing page),
whose content is the concatenation, in catalog order, of one entry per
post, each entry carrying a link to the post's route, the post's title
and its formatted date. -/
theorem listing_page_spec :
    (∀ (c : List Post) (tmpl : Templates) (tr : String → Except String String),
        (∀ p ∈ c, p.path ≠ "/") →
        ((render c tmpl tr).1.filter (fun pg => pg.route == "/")).length = 1) ∧
    (∀ (c : List Post) (tmpl : Templates) (tr : String → Except String String),
        listingPage c ∈ (render c tmpl tr).1 ∧
        (listingPage c).route = "/" ∧
        (listingPage c).content = String.join (c.map listingEntry)) ∧
    (∀ (c : List Post) (p : Post), p ∈ c →
        strContains (listingPage c).content
          ("<a href=\"" ++ p.path ++ "\">" ++ escapeHtml p.title ++ "</a>") ∧
        strContains (listingPage c).content
          ("<span>" ++ escapeHtml (formatDateISO p.publicationDate) ++ "</span>")) := by
  refine ⟨?_, ?_, ?_⟩
  · intro c tmpl tr hpaths
    simp [render, List.filter_cons, listingPage]
    intro pg p hp hsome
    obtain ⟨q, hq, hroute⟩ := renderPost_toOption_route c tmpl tr pg p hp hsome
    rw [hroute]
    exact hpaths q hq
  · intro c tmpl tr
    refine ⟨List.mem_cons_self _ _, rfl, ?_⟩
    induction c with
    | nil => rfl
    | cons p t ih =>
      show listingEntry p ++ listingContent t
          = String.join (listingEntry p :: t.map listingEntry)
      rw [join_cons]
      exact congrArg (fun s => listingEntry p ++ s) ih
  · intro c p hp
    exact ⟨strContains_listingContent c p hp _ (anchor_in_listingEntry p),
           strContains_listingContent c p hp _ (span_in_listingEntry p)⟩

/-- Witness for `listing_page_spec`: the concrete two-post catalog has
exactly one page at `/`, and its listing contains `postB`'s anchor and
date span. -/
theorem listing_page_spec_witness :
    ((render [postB, postA] { showReadingTime := false } demoTransform).1.filter
        (fun pg => pg.route == "/")).length = 1 ∧
    strContains (listingPage [postB, postA]).content
      ("<a href=\"" ++ postB.path ++ "\">" ++ escapeHtml postB.title ++ "</a>") ∧
    strContains (listingPage [postB, postA]).content
      ("<span>" ++ escapeHtml (formatDateISO postB.publicationDate) ++ "</span>") :=
  ⟨listing_page_spec.1 [postB, postA] { showReadingTime := false } demoTransform
      (by decide),
   listing_page_spec.2.2 [postB, postA] postB (by decide)⟩

/-- C6: for every catalog post whose body transformation succeeds,
`render` produces a page at route equal to the post's `path`, composed
from the post template: it contains the `h1` escaped title, the
`MMMM DD, YYYY` formatted date, the reading-time display when the
template shows it, and the transformed HTML body. -/
theorem post_page_spec (c : List Post) (tmpl : Templates)
    (tr : String → Except String String) (p : Post) (hp : p ∈ c)
    (html : String) (htr : tr p.bodyMarkup = Except.ok html) :
    ∃ pg ∈ (render c tmpl tr).1,
      pg.route = p.path ∧
      pg.content = postContent tmpl p html ∧
      strContains pg.content ("<h1>" ++ escapeHtml p.title ++ "</h1>") ∧
      strContains pg.content (escapeHtml (formatDateLong p.publicationDate)) ∧
      (tmpl.showReadingTime = true →
        strContains pg.content (escapeHtml (readingTime p.bodyMarkup).text)) ∧
      strContains pg.content html := by
  refine ⟨⟨p.path, postContent tmpl p html⟩, ?_, rfl, rfl, ?_, ?_, ?_, ?_⟩
  · show _ ∈ listingPage c :: (c.map (renderPost tmpl tr)).filterMap Except.toOption
    apply List.mem_cons_of_mem
    apply List.mem_filterMap.mpr
    refine ⟨renderPost tmpl tr p, List.mem_map.mpr ⟨p, hp, rfl⟩, ?_⟩
    unfold renderPost
    rw [htr]
    rfl
  · show strContains (postContent tmpl p html) _
    unfold postContent
    apply strContains_appendRight
    apply strContains_appendRight
    apply strContains_appendRight
    exact strContains_refl_append _ _
  · show strContains (postContent tmpl p html) _
    unfold postContent
    apply strContains_appendRight
    apply strContains_appendRight
    apply strContains_prepend
    apply strContains_appendRight
    apply strContains_appendRight
    exact strContains_refl_append _ _
  · intro hrt
    show strContains (postContent tmpl p html) _
    unfold postContent
    rw [hrt]
    simp only [if_true]
    apply strContains_appendRight
    apply strContains_appendRight
    apply strContains_prepend
    apply strContains_appendRight
    apply strContains_prepend
    exact strContains_refl_append _ _
  · show strContains (postContent tmpl p html) _
    unfold postContent
    apply strContains_appendRight
    apply strContains_prepend
    apply strContains_appendRight
    exact strContains_refl_append _ _

/-- Witness for `post_page_spec`: the page for `postA` rendered with the
reading-time template. -/
theorem post_page_spec_witness :
    ∃ pg ∈ (render [postA] { showReadingTime := true } demoTransform).1,
      pg.route = postA.path ∧
      pg.content = postContent { showReadingTime := true } postA
        ("<p>" ++ postA.bodyMarkup ++ "</p>") ∧
      strContains pg.content ("<h1>" ++ escapeHtml postA.title ++ "</h1>") ∧
      strContains pg.content (escapeHtml (formatDateLong postA.publicationDate)) ∧
      ((Templates.mk true).showReadingTime = true →
        strContains pg.content (escapeHtml (readingTime postA.bodyMarkup).text)) ∧
      strContains pg.content ("<p>" ++ postA.bodyMarkup ++ "</p>") :=
  post_page_spec [postA] { showReadingTime := true } demoTransform postA
    (by decide) ("<p>" ++ postA.bodyMarkup ++ "</p>") (by rfl)

/-- C9: `render` is deterministic: it is a pure function of the catalog,
the templates and the transformer, so two runs on equal inputs produce
identical output pages, byte for byte. -/
theorem render_deterministic (c c' : List Post) (tmpl tmpl' : Templates)
    (tr tr' : String → Except String String)
    (hc : c = c') (ht : tmpl = tmpl') (htr : tr = tr') :
    render c tmpl tr = render c' tmpl' tr' := by
  subst hc
  subst ht
  subst htr
  rfl

/-- Witness for `render_deterministic`: two runs on the concrete
catalog agree. -/
theorem render_deterministic_witness :
    render [postB, postA] { showReadingTime := false } demoTransform
      = render [postB, postA] { showReadingTime := false } demoTransform :=
  render_deterministic [postB, postA] [postB, postA]
    { showReadingTime := false } { showReadingTime := false }
    demoTransform demoTransform rfl rfl rfl

/-- C10: the post template inserts the transformer's HTML output
verbatim: the rendered page content is `pre ++ html ++ suf` for a prefix
and suffix that do not depend on the HTML string, so the body appears
exactly as returned, with no escaping applied to it. -/
theorem inner_html_verbatim (tmpl : Templates) (p : Post) (html : String)
    (tr : String → Except String String)
    (htr : tr p.bodyMarkup = Except.ok html) :
    ∃ pre suf,
      renderPost tmpl tr p = Except.ok ⟨p.path, pre ++ (html ++ suf)⟩ ∧
      ∀ other : String, postContent tmpl p other = pre ++ (other ++ suf) := by
  refine ⟨"<div class=\"blog-post\">"
      ++ ("<h1>" ++ escapeHtml p.title ++ "</h1>")
      ++ ("<h2>" ++ escapeHtml (formatDateLong p.publicationDate)
          ++ (if tmpl.showReadingTime then
                " - " ++ escapeHtml (readingTime p.bodyMarkup).text
              else "")
          ++ "</h2>")
      ++ "<div class=\"blog-post-content\">",
    "</div>" ++ "</div>", ?_, ?_⟩
  · unfold renderPost
    rw [htr]
    show Except.ok (Page.mk p.path (postContent tmpl p html)) = _
    unfold postContent
    simp only [String.append_assoc]
  · intro other
    unfold postContent
    simp only [String.append_assoc]

/-- Witness for `inner_html_verbatim`: the concrete page for `postA`. -/
theorem inner_html_verbatim_witness :
    ∃ pre suf,
      renderPost { showReadingTime := false } demoTransform postA
          = Except.ok ⟨postA.path, pre ++ (("<p>" ++ postA.bodyMarkup ++ "</p>") ++ suf)⟩ ∧
      ∀ other : String, postContent { showReadingTime := false } postA other
          = pre ++ (other ++ suf) :=
  inner_html_verbatim { showReadingTime := false } postA
    ("<p>" ++ postA.bodyMarkup ++ "</p>") demoTransform (by rfl)

/-- C8: rendering failures are isolated per page: a post whose body
transformation fails is reported as a `RenderFailure` and excluded from
the output set, every other post's page is still produced, and in the
concrete three-post catalog whose second post has the unparsable body,
`render` yields the listing plus exactly 2 post pages, exactly the one
failure report, and a listing that still references all three titles —
with the failed post's link pointing at a route at which no page was
produced. -/
theorem render_partial_failure :
    (∀ (c : List Post) (tmpl : Templates) (tr : String → Except String String) (p : Post),
        p ∈ c → ∀ m, tr p.bodyMarkup = Except.error m →
        ({ path := p.path, message := m } : RenderFailure) ∈ (render c tmpl tr).2 ∧
        ((c.map Post.path).Nodup → p.path ≠ "/" →
          ∀ pg ∈ (render c tmpl tr).1, pg.route ≠ p.path)) ∧
    (∀ (c : List Post) (tmpl : Templates) (tr : String → Except String String) (q : Post),
        q ∈ c → ∀ h, tr q.bodyMarkup = Except.ok h →
        Page.mk q.path (postContent tmpl q h) ∈ (render c tmpl tr).1) ∧
    ((render [postQ1, postQ2, postQ3] { showReadingTime := false } demoTransform).1.length
        = 3 ∧
      (render [postQ1, postQ2, postQ3] { showReadingTime := false } demoTransform).2
        = [{ path := postQ2.path, message := "unbalanced markup construct" }] ∧
      strContains (listingPage [postQ1, postQ2, postQ3]).content (escapeHtml postQ1.title) ∧
      strContains (listingPage [postQ1, postQ2, postQ3]).content (escapeHtml postQ2.title) ∧
      strContains (listingPage [postQ1, postQ2, postQ3]).content (escapeHtml postQ3.title) ∧
      strContains (listingPage [postQ1, postQ2, postQ3]).content
        ("<a href=\"" ++ postQ2.path ++ "\">" ++ escapeHtml postQ2.title ++ "</a>") ∧
      ∀ pg ∈ (render [postQ1, postQ2, postQ3] { showReadingTime := false }
          demoTransform).1, pg.route ≠ postQ2.path) := by
  have ha : ∀ (c : List Post) (tmpl : Templates) (tr : String → Except String String)
      (p : Post), p ∈ c → ∀ m, tr p.bodyMarkup = Except.error m →
      ({ path := p.path, message := m } : RenderFailure) ∈ (render c tmpl tr).2 ∧
      ((c.map Post.path).Nodup → p.path ≠ "/" →
        ∀ pg ∈ (render c tmpl tr).1, pg.route ≠ p.path) := by
    intro c tmpl tr p hp m hm
    constructor
    · show _ ∈ renderErrors (c.map (renderPost tmpl tr))
      unfold renderErrors
      apply List.mem_filterMap.mpr
      refine ⟨renderPost tmpl tr p, List.mem_map.mpr ⟨p, hp, rfl⟩, ?_⟩
      unfold renderPost
      rw [hm]
    · intro hnodup hslash pg hpg hroute
      rcases List.mem_cons.mp hpg with heq | hmem
      · rw [heq] at hroute
        exact hslash hroute.symm
      · obtain ⟨q, hq, hqroute, html', hok⟩ := mem_renderPages_inv c tmpl tr pg hmem
        have hqp : q = p :=
          List.inj_on_of_nodup_map hnodup hq hp (by rw [← hqroute, hroute])
        rw [hqp, hm] at hok
        cases hok
  refine ⟨ha, ?_, rfl, rfl, ?_, ?_, ?_, ?_, ?_⟩
  · intro c tmpl tr q hq h hok
    show _ ∈ listingPage c :: (c.map (renderPost tmpl tr)).filterMap Except.toOption
    apply List.mem_cons_of_mem
    apply List.mem_filterMap.mpr
    refine ⟨renderPost tmpl tr q, List.mem_map.mpr ⟨q, hq, rfl⟩, ?_⟩
    unfold renderPost
    rw [hok]
    rfl
  · exact strContains_listingContent _ postQ1 (by decide) _ (title_in_listingEntry postQ1)
  · exact strContains_listingContent _ postQ2 (by decide) _ (title_in_listingEntry postQ2)
  · exact strContains_listingContent _ postQ3 (by decide) _ (title_in_listingEntry postQ3)
  · exact strContains_listingContent _ postQ2 (by decide) _ (anchor_in_listingEntry postQ2)
  · exact (ha [postQ1, postQ2, postQ3] { showReadingTime := false } demoTransform postQ2
      (by decide) "unbalanced markup construct" rfl).2 (by decide) (by decide)

/-- Witness for `render_partial_failure`: the failure report for the
unparsable second post is produced, and the first post's page is still
rendered. -/
theorem render_partial_failure_witness :
    ({ path := postQ2.path, message := "unbalanced markup construct" } : RenderFailure)
        ∈ (render [postQ1, postQ2, postQ3] { showReadingTime := false } demoTransform).2 ∧
    Page.mk postQ1.path (postContent { showReadingTime := false } postQ1
        ("<p>" ++ postQ1.bodyMarkup ++ "</p>"))
      ∈ (render [postQ1, postQ2, postQ3] { showReadingTime := false } demoTransform).1 :=
  ⟨(render_partial_failure.1 [postQ1, postQ2, postQ3] { showReadingTime := false }
      demoTransform postQ2 (by decide) "unbalanced markup construct" rfl).1,
   render_partial_failure.2.1 [postQ1, postQ2, postQ3] { showReadingTime := false }
      demoTransform postQ1 (by decide) ("<p>" ++ postQ1.bodyMarkup ++ "</p>") rfl⟩

end Blog
